import Mathlib

/-
Verification of the empty-value normalization and write-validation engine of
kintone-effect-schema, embedded shallowly from:
  src/decoders.ts            (normalizeFieldValue, decodeKintoneRecord)
  src/validators.ts          (validateFieldForWrite, validateRecordForWrite,
                              isNonEmptyField, getEmptyValueForWrite,
                              KintoneValidationError)
JavaScript runtime values are modelled by the inductive `JSVal`; objects are
association lists of (key, value) pairs in property insertion order, with a
missing property reading as `undefined`, as in JS.
-/

/-- JavaScript runtime values as far as the normalizer and validators inspect
them: undefined, null, booleans, numbers (payload opaque to this code),
strings, arrays, and plain objects (property lists in insertion order). -/
inductive JSVal : Type where
  | undef : JSVal
  | null : JSVal
  | bool : Bool → JSVal
  | num : Int → JSVal
  | str : String → JSVal
  | arr : List JSVal → JSVal
  | obj : List (String × JSVal) → JSVal

/-- Property read `o[k]`: first entry with the key, `undefined` when absent. -/
def getProp : List (String × JSVal) → String → JSVal
  | [], _ => JSVal.undef
  | (k', v) :: rest, k => if k' = k then v else getProp rest k

/-- Object spread with override, as in the source's `{ ...fieldObj, value: x }`:
the existing entry for the key keeps its position and gets the new value; a
missing key is appended at the end. -/
def setProp : List (String × JSVal) → String → JSVal → List (String × JSVal)
  | [], k, v => [(k, v)]
  | (k', w) :: rest, k, v =>
      if k' = k then (k, v) :: rest else (k', w) :: setProp rest k v

/-- The JS strict-equality test `value === undefined`. -/
def isUndef : JSVal → Bool
  | JSVal.undef => true
  | _ => false

/-- The JS strict-equality test `value === null`. -/
def isNull : JSVal → Bool
  | JSVal.null => true
  | _ => false

/-- The JS strict-equality test `value === ''`. -/
def isEmptyStr : JSVal → Bool
  | JSVal.str s => s == ""
  | _ => false

/-- The JS test `Array.isArray(value) && value.length === 0`. -/
def isEmptyArr : JSVal → Bool
  | JSVal.arr l => l.isEmpty
  | _ => false

/-- Whether a `type` property value is one of the given string tags (the JS
switch compares the property against string literals, so a non-string tag
matches no case). -/
def tagIs (t : JSVal) (tags : List String) : Bool :=
  match t with
  | JSVal.str s => tags.contains s
  | _ => false

/-- Tags of the `undefined → ""` cases of the switch in normalizeFieldValue. -/
def stringEmptyTags : List String :=
  ["SINGLE_LINE_TEXT", "MULTI_LINE_TEXT", "LINK", "LOOKUP"]

/-- Tags of the `undefined/null → []` cases of the switch. -/
def arrayDefaultTags : List String :=
  ["CHECK_BOX", "MULTI_SELECT", "USER_SELECT", "ORGANIZATION_SELECT",
   "GROUP_SELECT", "FILE", "CATEGORY", "STATUS_ASSIGNEE"]

/-- Every tag carrying its own case in the switch of normalizeFieldValue;
anything else reaches the default case. -/
def handledTags : List String :=
  stringEmptyTags ++ ["RICH_TEXT", "NUMBER", "DATETIME", "DATE", "TIME",
    "DROP_DOWN", "RADIO_BUTTON"] ++ arrayDefaultTags

/-- src/decoders.ts normalizeFieldValue. Non-object inputs are returned
unchanged by the guard `!field || typeof field !== 'object'`; a JS array
passes that guard but reads `type` as undefined and so falls through the
switch to the default case, which returns the same object — hence the
catch-all arm below is also the identity. -/
def normalizeFieldValue (field : JSVal) : JSVal :=
  match field with
  | JSVal.obj props =>
      if tagIs (getProp props "type") stringEmptyTags then
        JSVal.obj (setProp props "value"
          (if isUndef (getProp props "value") then JSVal.str ""
           else getProp props "value"))
      else if tagIs (getProp props "type") ["RICH_TEXT"] then
        JSVal.obj props
      else if tagIs (getProp props "type") ["NUMBER", "DATETIME"] then
        JSVal.obj (setProp props "value"
          (if isUndef (getProp props "value") || isEmptyStr (getProp props "value")
           then JSVal.null else getProp props "value"))
      else if tagIs (getProp props "type") ["DATE", "TIME"] then
        JSVal.obj (setProp props "value"
          (if isUndef (getProp props "value") then JSVal.null
           else getProp props "value"))
      else if tagIs (getProp props "type") ["DROP_DOWN"] then
        JSVal.obj (setProp props "value"
          (if isUndef (getProp props "value") || isEmptyStr (getProp props "value")
           then JSVal.null else getProp props "value"))
      else if tagIs (getProp props "type") ["RADIO_BUTTON"] then
        JSVal.obj (setProp props "value"
          (if isUndef (getProp props "value") || isEmptyStr (getProp props "value")
           then JSVal.null else getProp props "value"))
      else if tagIs (getProp props "type") arrayDefaultTags then
        JSVal.obj (setProp props "value"
          (if isUndef (getProp props "value") || isNull (getProp props "value")
           then JSVal.arr [] else getProp props "value"))
      else
        JSVal.obj props
  | other => other

/-- The `value` property of a field object (undefined for non-objects). -/
def valueOf : JSVal → JSVal
  | JSVal.obj props => getProp props "value"
  | _ => JSVal.undef

/-- The property list of an object value ([] for non-objects). -/
def objProps : JSVal → List (String × JSVal)
  | JSVal.obj props => props
  | _ => []

/-- src/validators.ts KintoneValidationError: carries the offending field
type and a human-readable message. -/
structure KintoneValidationError where
  fieldType : String
  message : String

/-- A field as the validators receive it: `{ type, value }` (named KField here since Lean reserves Field). -/
structure KField where
  type : String
  value : JSVal

/-- The message `KintoneValidationError` is constructed with in both
validateFieldForWrite and getEmptyValueForWrite. -/
def emptyValueMessage (t : String) : String :=
  t ++ "フィールドには空の値を設定できません"

/-- The `nonEmptyFields` array literal inside validateFieldForWrite. -/
def nonEmptyFields : List String := ["RADIO_BUTTON", "CATEGORY", "STATUS_ASSIGNEE"]

/-- The switch inside validateFieldForWrite computing `isEmpty` (its default
leaves `isEmpty = false`). -/
def fieldIsEmpty (t : String) (v : JSVal) : Bool :=
  if t = "RADIO_BUTTON" then isNull v || isEmptyStr v
  else if t = "CATEGORY" ∨ t = "STATUS_ASSIGNEE" then isEmptyArr v
  else false

/-- src/validators.ts validateFieldForWrite: throwing is modelled as
returning `Except.error`. -/
def validateFieldForWrite (f : KField) : Except KintoneValidationError Unit :=
  if nonEmptyFields.contains f.type then
    if fieldIsEmpty f.type f.value then
      Except.error ⟨f.type, emptyValueMessage f.type⟩
    else Except.ok ()
  else Except.ok ()

/-- src/validators.ts isNonEmptyField. -/
def isNonEmptyField (t : String) : Bool :=
  (["RADIO_BUTTON", "CATEGORY", "STATUS_ASSIGNEE"] : List String).contains t

/-- The re-thrown error of validateRecordForWrite:
`new KintoneValidationError(error.fieldType, `フィールド "${fieldCode}": ${error.message}`)`. -/
def wrapFieldError (fieldCode : String) (e : KintoneValidationError) : KintoneValidationError :=
  ⟨e.fieldType, "フィールド \"" ++ fieldCode ++ "\": " ++ e.message⟩

/-- src/validators.ts validateRecordForWrite. A record is its list of
(fieldCode, field) entries in insertion order, which is what
`Object.entries` iterates. -/
def validateRecordForWrite : List (String × KField) → Except KintoneValidationError Unit
  | [] => Except.ok ()
  | (fieldCode, f) :: rest =>
      match validateFieldForWrite f with
      | Except.error e => Except.error (wrapFieldError fieldCode e)
      | Except.ok _ => validateRecordForWrite rest

/-- src/validators.ts getEmptyValueForWrite: the switch's case groups in
source order; throwing is `Except.error`, the final default returns "". -/
def getEmptyValueForWrite (t : String) : Except KintoneValidationError JSVal :=
  if (["SINGLE_LINE_TEXT", "MULTI_LINE_TEXT", "RICH_TEXT", "LINK", "LOOKUP"] : List String).contains t then
    Except.ok (JSVal.str "")
  else if (["NUMBER", "DATE", "TIME", "DATETIME", "DROP_DOWN"] : List String).contains t then
    Except.ok JSVal.null
  else if (["CHECK_BOX", "MULTI_SELECT", "USER_SELECT", "ORGANIZATION_SELECT",
            "GROUP_SELECT", "FILE"] : List String).contains t then
    Except.ok (JSVal.arr [])
  else if (["RADIO_BUTTON", "CATEGORY", "STATUS_ASSIGNEE"] : List String).contains t then
    Except.error ⟨t, emptyValueMessage t⟩
  else
    Except.ok (JSVal.str "")

/-- Whether `pat` is an initial segment of `hay` (character lists). -/
def headMatch : List Char → List Char → Bool
  | [], _ => true
  | _ :: _, [] => false
  | a :: as, b :: bs => a == b && headMatch as bs

/-- Whether `pat` occurs contiguously somewhere in `hay`. -/
def listHasSub : List Char → List Char → Bool
  | [], pat => headMatch pat []
  | c :: t, pat => headMatch pat (c :: t) || listHasSub t pat

/-- Substring occurrence test on strings. -/
def strHasSub (hay pat : String) : Bool :=
  listHasSub hay.data pat.data

/-! Basic lemmas about property access and update. -/

theorem getProp_setProp_self (props : List (String × JSVal)) (k : String) (v : JSVal) :
    getProp (setProp props k v) k = v := by
  induction props with
  | nil => simp [setProp, getProp]
  | cons hd tl ih =>
      obtain ⟨k', w⟩ := hd
      by_cases h : k' = k
      · simp [setProp, h, getProp]
      · simp [setProp, h, getProp, ih]

theorem getProp_setProp_ne (props : List (String × JSVal)) (k k' : String) (v : JSVal)
    (h : k' ≠ k) : getProp (setProp props k v) k' = getProp props k' := by
  have hk : ¬ (k = k') := fun hh => h (Eq.symm hh)
  induction props with
  | nil => simp [setProp, getProp, hk]
  | cons hd tl ih =>
      obtain ⟨k₀, w⟩ := hd
      by_cases h0 : k₀ = k
      · subst h0
        simp [setProp, getProp, hk]
      · by_cases h1 : k₀ = k'
        · subst h1
          simp [setProp, h0, getProp]
        · simp [setProp, h0, getProp, h1, ih]

theorem setProp_setProp_self (props : List (String × JSVal)) (k : String) (v : JSVal) :
    setProp (setProp props k v) k v = setProp props k v := by
  induction props with
  | nil => simp [setProp]
  | cons hd tl ih =>
      obtain ⟨k', w⟩ := hd
      by_cases h : k' = k
      · simp [setProp, h]
      · simp [setProp, h, ih]

theorem getProp_type_setProp_value (props : List (String × JSVal)) (v : JSVal) :
    getProp (setProp props "value" v) "type" = getProp props "type" :=
  getProp_setProp_ne props "value" "type" v (by decide)

/-! Characterizations of the strict-equality tests. -/

theorem isUndef_iff (v : JSVal) : isUndef v = true ↔ v = JSVal.undef := by
  cases v <;> simp [isUndef]

theorem isNull_iff (v : JSVal) : isNull v = true ↔ v = JSVal.null := by
  cases v <;> simp [isNull]

theorem isEmptyStr_iff (v : JSVal) : isEmptyStr v = true ↔ v = JSVal.str "" := by
  cases v <;> simp [isEmptyStr]

theorem isEmptyArr_iff (v : JSVal) : isEmptyArr v = true ↔ v = JSVal.arr [] := by
  cases v with
  | arr l => cases l <;> simp [isEmptyArr]
  | _ => simp [isEmptyArr]
theorem valueOf_setProp (props : List (String × JSVal)) (v : JSVal) :
    valueOf (JSVal.obj (setProp props "value" v)) = v := by
  simp [valueOf, getProp_setProp_self]

theorem isUndef_false_of_ne {v : JSVal} (h : v ≠ JSVal.undef) : isUndef v = false := by
  cases v <;> first | rfl | exact absurd rfl h

theorem isNull_false_of_ne {v : JSVal} (h : v ≠ JSVal.null) : isNull v = false := by
  cases v <;> first | rfl | exact absurd rfl h

theorem isEmptyStr_false_of_ne {v : JSVal} (h : v ≠ JSVal.str "") : isEmptyStr v = false := by
  cases v <;> simp [isEmptyStr]
  exact fun hh => h (by rw [hh])

theorem tagIs_str_iff (t : JSVal) (l : List String) :
    tagIs t l = true ↔ ∃ s, t = JSVal.str s ∧ s ∈ l := by
  cases t <;> simp [tagIs]

/-- If a branch of the normalizer rewrites the value with a transform `g`
(selected purely by the `type` property), and `g` is idempotent, then the
normalizer is idempotent on such an object. -/
theorem norm_twice_of_setProp (props : List (String × JSVal)) (g : JSVal → JSVal)
    (hfix : ∀ u, g (g u) = g u)
    (hsel : ∀ q : List (String × JSVal), getProp q "type" = getProp props "type" →
      normalizeFieldValue (JSVal.obj q) = JSVal.obj (setProp q "value" (g (getProp q "value")))) :
    normalizeFieldValue (normalizeFieldValue (JSVal.obj props)) =
      normalizeFieldValue (JSVal.obj props) := by
  have h1 := hsel props rfl
  have h2 := hsel (setProp props "value" (g (getProp props "value")))
    (getProp_type_setProp_value props _)
  rw [h1, h2, getProp_setProp_self, hfix, setProp_setProp_self]

/-- Branches of the normalizer that return the object unchanged are
idempotent on it. -/
theorem norm_twice_of_id (props : List (String × JSVal))
    (h : normalizeFieldValue (JSVal.obj props) = JSVal.obj props) :
    normalizeFieldValue (normalizeFieldValue (JSVal.obj props)) =
      normalizeFieldValue (JSVal.obj props) := by
  rw [h]
  exact h

/-- C6: normalization is idempotent — for every input f,
normalizeFieldValue (normalizeFieldValue f) = normalizeFieldValue f, so the
normalized form is a fixed point of normalizeFieldValue. -/
theorem normalizeFieldValue_idem (f : JSVal) :
    normalizeFieldValue (normalizeFieldValue f) = normalizeFieldValue f := by
  cases f with
  | undef => rfl
  | null => rfl
  | bool b => rfl
  | num n => rfl
  | str s => rfl
  | arr l => rfl
  | obj props =>
      cases hc1 : tagIs (getProp props "type") stringEmptyTags with
      | true =>
          apply norm_twice_of_setProp props
            (fun u => if isUndef u then JSVal.str "" else u)
          · intro u
            cases hu : isUndef u with
            | true => simp [isUndef, hu]
            | false => simp [hu]
          · intro q hq
            simp [normalizeFieldValue, hq, hc1]
      | false =>
      cases hc2 : tagIs (getProp props "type") ["RICH_TEXT"] with
      | true =>
          apply norm_twice_of_id props
          simp [normalizeFieldValue, hc1, hc2]
      | false =>
      cases hc3 : tagIs (getProp props "type") ["NUMBER", "DATETIME"] with
      | true =>
          apply norm_twice_of_setProp props
            (fun u => if isUndef u || isEmptyStr u then JSVal.null else u)
          · intro u
            cases hu : (isUndef u || isEmptyStr u) with
            | true => simp [isUndef, isEmptyStr, hu]
            | false => simp [hu]
          · intro q hq
            simp [normalizeFieldValue, hq, hc1, hc2, hc3]
      | false =>
      cases hc4 : tagIs (getProp props "type") ["DATE", "TIME"] with
      | true =>
          apply norm_twice_of_setProp props
            (fun u => if isUndef u then JSVal.null else u)
          · intro u
            cases hu : isUndef u with
            | true => simp [isUndef, hu]
            | false => simp [hu]
          · intro q hq
            simp [normalizeFieldValue, hq, hc1, hc2, hc3, hc4]
      | false =>
      cases hc5 : tagIs (getProp props "type") ["DROP_DOWN"] with
      | true =>
          apply norm_twice_of_setProp props
            (fun u => if isUndef u || isEmptyStr u then JSVal.null else u)
          · intro u
            cases hu : (isUndef u || isEmptyStr u) with
            | true => simp [isUndef, isEmptyStr, hu]
            | false => simp [hu]
          · intro q hq
            simp [normalizeFieldValue, hq, hc1, hc2, hc3, hc4, hc5]
      | false =>
      cases hc6 : tagIs (getProp props "type") ["RADIO_BUTTON"] with
      | true =>
          apply norm_twice_of_setProp props
            (fun u => if isUndef u || isEmptyStr u then JSVal.null else u)
          · intro u
            cases hu : (isUndef u || isEmptyStr u) with
            | true => simp [isUndef, isEmptyStr, hu]
            | false => simp [hu]
          · intro q hq
            simp [normalizeFieldValue, hq, hc1, hc2, hc3, hc4, hc5, hc6]
      | false =>
      cases hc7 : tagIs (getProp props "type") arrayDefaultTags with
      | true =>
          apply norm_twice_of_setProp props
            (fun u => if isUndef u || isNull u then JSVal.arr [] else u)
          · intro u
            cases hu : (isUndef u || isNull u) with
            | true => simp [isUndef, isNull, hu]
            | false => simp [hu]
          · intro q hq
            simp [normalizeFieldValue, hq, hc1, hc2, hc3, hc4, hc5, hc6, hc7]
      | false =>
          apply norm_twice_of_id props
          simp [normalizeFieldValue, hc1, hc2, hc3, hc4, hc5, hc6, hc7]

theorem tagIs_sublist_false {t : JSVal} {l l' : List String}
    (hsub : ∀ x ∈ l, x ∈ l') (h : tagIs t l' = false) : tagIs t l = false := by
  cases t with
  | str s =>
      simp [tagIs] at h ⊢
      exact fun hm => h (hsub s hm)
  | undef => rfl
  | null => rfl
  | bool b => rfl
  | num n => rfl
  | arr a => rfl
  | obj o => rfl

/-- C1: normalizeFieldValue implements the per-family rule table exactly:
for the string-empty family (SINGLE_LINE_TEXT, MULTI_LINE_TEXT, LINK,
LOOKUP) undefined maps to "" and everything else (including null) passes
through; RICH_TEXT is always unchanged; for NUMBER, DATETIME, DROP_DOWN and
RADIO_BUTTON both undefined and "" map to null, all else unchanged; for
DATE and TIME only undefined maps to null; for the array family both
undefined and null map to [], all else unchanged; CALC, STATUS, CREATOR and
any unrecognized tag (not in handledTags) are returned unchanged. -/
theorem normalizeFieldValue_rule_table (props : List (String × JSVal)) :
    (tagIs (getProp props "type") stringEmptyTags = true →
      (getProp props "value" = JSVal.undef →
        valueOf (normalizeFieldValue (JSVal.obj props)) = JSVal.str "") ∧
      (getProp props "value" ≠ JSVal.undef →
        valueOf (normalizeFieldValue (JSVal.obj props)) = getProp props "value")) ∧
    (getProp props "type" = JSVal.str "RICH_TEXT" →
      normalizeFieldValue (JSVal.obj props) = JSVal.obj props) ∧
    (tagIs (getProp props "type") ["NUMBER", "DATETIME", "DROP_DOWN", "RADIO_BUTTON"] = true →
      ((getProp props "value" = JSVal.undef ∨ getProp props "value" = JSVal.str "") →
        valueOf (normalizeFieldValue (JSVal.obj props)) = JSVal.null) ∧
      ((getProp props "value" ≠ JSVal.undef ∧ getProp props "value" ≠ JSVal.str "") →
        valueOf (normalizeFieldValue (JSVal.obj props)) = getProp props "value")) ∧
    (tagIs (getProp props "type") ["DATE", "TIME"] = true →
      (getProp props "value" = JSVal.undef →
        valueOf (normalizeFieldValue (JSVal.obj props)) = JSVal.null) ∧
      (getProp props "value" ≠ JSVal.undef →
        valueOf (normalizeFieldValue (JSVal.obj props)) = getProp props "value")) ∧
    (tagIs (getProp props "type") arrayDefaultTags = true →
      ((getProp props "value" = JSVal.undef ∨ getProp props "value" = JSVal.null) →
        valueOf (normalizeFieldValue (JSVal.obj props)) = JSVal.arr []) ∧
      ((getProp props "value" ≠ JSVal.undef ∧ getProp props "value" ≠ JSVal.null) →
        valueOf (normalizeFieldValue (JSVal.obj props)) = getProp props "value")) ∧
    (tagIs (getProp props "type") handledTags = false →
      normalizeFieldValue (JSVal.obj props) = JSVal.obj props) := by
  refine ⟨?_, ?_, ?_, ?_, ?_, ?_⟩
  · intro h1
    have hnorm : normalizeFieldValue (JSVal.obj props) =
        JSVal.obj (setProp props "value"
          (if isUndef (getProp props "value") then JSVal.str ""
           else getProp props "value")) := by
      simp [normalizeFieldValue, h1]
    refine ⟨fun hv => ?_, fun hv => ?_⟩
    · rw [hnorm, valueOf_setProp, hv]
      simp [isUndef]
    · rw [hnorm, valueOf_setProp]
      simp [isUndef_false_of_ne hv]
  · intro h2
    simp [normalizeFieldValue, h2, tagIs, stringEmptyTags]
  · intro h3
    rcases (tagIs_str_iff _ _).mp h3 with ⟨s, hts, hmem⟩
    simp at hmem
    have hnorm : normalizeFieldValue (JSVal.obj props) =
        JSVal.obj (setProp props "value"
          (if isUndef (getProp props "value") || isEmptyStr (getProp props "value")
           then JSVal.null else getProp props "value")) := by
      rcases hmem with h | h | h | h <;> subst h <;>
        simp [normalizeFieldValue, hts, tagIs, stringEmptyTags, arrayDefaultTags]
    refine ⟨fun hv => ?_, fun hv => ?_⟩
    · rw [hnorm, valueOf_setProp]
      rcases hv with hv | hv <;> rw [hv] <;> simp [isUndef, isEmptyStr]
    · rw [hnorm, valueOf_setProp]
      simp [isUndef_false_of_ne hv.1, isEmptyStr_false_of_ne hv.2]
  · intro h4
    rcases (tagIs_str_iff _ _).mp h4 with ⟨s, hts, hmem⟩
    simp at hmem
    have hnorm : normalizeFieldValue (JSVal.obj props) =
        JSVal.obj (setProp props "value"
          (if isUndef (getProp props "value") then JSVal.null
           else getProp props "value")) := by
      rcases hmem with h | h <;> subst h <;>
        simp [normalizeFieldValue, hts, tagIs, stringEmptyTags, arrayDefaultTags]
    refine ⟨fun hv => ?_, fun hv => ?_⟩
    · rw [hnorm, valueOf_setProp, hv]
      simp [isUndef]
    · rw [hnorm, valueOf_setProp]
      simp [isUndef_false_of_ne hv]
  · intro h5
    rcases (tagIs_str_iff _ _).mp h5 with ⟨s, hts, hmem⟩
    simp [arrayDefaultTags] at hmem
    have hnorm : normalizeFieldValue (JSVal.obj props) =
        JSVal.obj (setProp props "value"
          (if isUndef (getProp props "value") || isNull (getProp props "value")
           then JSVal.arr [] else getProp props "value")) := by
      rcases hmem with h | h | h | h | h | h | h | h <;> subst h <;>
        simp [normalizeFieldValue, hts, tagIs, stringEmptyTags, arrayDefaultTags]
    refine ⟨fun hv => ?_, fun hv => ?_⟩
    · rw [hnorm, valueOf_setProp]
      rcases hv with hv | hv <;> rw [hv] <;> simp [isUndef, isNull]
    · rw [hnorm, valueOf_setProp]
      simp [isUndef_false_of_ne hv.1, isNull_false_of_ne hv.2]
  · intro h6
    have hb1 : tagIs (getProp props "type") stringEmptyTags = false :=
      tagIs_sublist_false (by decide) h6
    have hb2 : tagIs (getProp props "type") ["RICH_TEXT"] = false :=
      tagIs_sublist_false (by decide) h6
    have hb3 : tagIs (getProp props "type") ["NUMBER", "DATETIME"] = false :=
      tagIs_sublist_false (by decide) h6
    have hb4 : tagIs (getProp props "type") ["DATE", "TIME"] = false :=
      tagIs_sublist_false (by decide) h6
    have hb5 : tagIs (getProp props "type") ["DROP_DOWN"] = false :=
      tagIs_sublist_false (by decide) h6
    have hb6 : tagIs (getProp props "type") ["RADIO_BUTTON"] = false :=
      tagIs_sublist_false (by decide) h6
    have hb7 : tagIs (getProp props "type") arrayDefaultTags = false :=
      tagIs_sublist_false (by decide) h6
    simp [normalizeFieldValue, hb1, hb2, hb3, hb4, hb5, hb6, hb7]

/-- Witness for C1: a LINK field with a missing value normalizes to "". -/
theorem normalizeFieldValue_rule_table_witness :
    valueOf (normalizeFieldValue (JSVal.obj [("type", JSVal.str "LINK")])) = JSVal.str "" :=
  ((normalizeFieldValue_rule_table [("type", JSVal.str "LINK")]).1 (by decide)).1 (by rfl)

theorem contains_false_iff (l : List String) (t : String) :
    l.contains t = false ↔ t ∉ l := by
  simp

theorem validateFieldForWrite_error_shape {f : KField} {e : KintoneValidationError}
    (he : validateFieldForWrite f = Except.error e) :
    e = ⟨f.type, emptyValueMessage f.type⟩ := by
  unfold validateFieldForWrite at he
  by_cases h1 : nonEmptyFields.contains f.type = true
  · rw [if_pos h1] at he
    by_cases h2 : fieldIsEmpty f.type f.value = true
    · rw [if_pos h2] at he
      injection he with h
      exact h.symm
    · rw [if_neg h2] at he
      cases he
  · rw [if_neg h1] at he
    cases he

/-- C2: validateFieldForWrite raises exactly when the type is one of
RADIO_BUTTON, CATEGORY, STATUS_ASSIGNEE — the very types isNonEmptyField
recognizes — and the value is empty by the type-specific test (null or ""
for RADIO_BUTTON; an empty array for CATEGORY and STATUS_ASSIGNEE); every
other type, recognized or not, always succeeds. -/
theorem validateFieldForWrite_raises_iff :
    (∀ t : String, isNonEmptyField t = true ↔
      (t = "RADIO_BUTTON" ∨ t = "CATEGORY" ∨ t = "STATUS_ASSIGNEE")) ∧
    (∀ f : KField, (∃ e, validateFieldForWrite f = Except.error e) ↔
      (isNonEmptyField f.type = true ∧
        ((f.type = "RADIO_BUTTON" ∧ (f.value = JSVal.null ∨ f.value = JSVal.str "")) ∨
         ((f.type = "CATEGORY" ∨ f.type = "STATUS_ASSIGNEE") ∧ f.value = JSVal.arr [])))) := by
  have hmem : ∀ t : String, isNonEmptyField t = true ↔
      (t = "RADIO_BUTTON" ∨ t = "CATEGORY" ∨ t = "STATUS_ASSIGNEE") := by
    intro t
    simp [isNonEmptyField, List.contains]
  refine ⟨hmem, ?_⟩
  intro f
  obtain ⟨t, v⟩ := f
  constructor
  · rintro ⟨e, he⟩
    unfold validateFieldForWrite at he
    by_cases h1 : nonEmptyFields.contains t = true
    · rw [if_pos h1] at he
      by_cases h2 : fieldIsEmpty t v = true
      · refine ⟨(hmem t).mpr ?_, ?_⟩
        · have h1' : t = "RADIO_BUTTON" ∨ t = "CATEGORY" ∨ t = "STATUS_ASSIGNEE" := by
            simpa [nonEmptyFields, List.contains] using h1
          exact h1'
        · have h1' : t = "RADIO_BUTTON" ∨ t = "CATEGORY" ∨ t = "STATUS_ASSIGNEE" := by
            simpa [nonEmptyFields, List.contains] using h1
          rcases h1' with rfl | rfl | rfl
          · left
            refine ⟨rfl, ?_⟩
            simp [fieldIsEmpty] at h2
            rcases h2 with h2 | h2
            · exact Or.inl ((isNull_iff v).mp h2)
            · exact Or.inr ((isEmptyStr_iff v).mp h2)
          · right
            refine ⟨Or.inl rfl, ?_⟩
            simp [fieldIsEmpty] at h2
            exact (isEmptyArr_iff v).mp h2
          · right
            refine ⟨Or.inr rfl, ?_⟩
            simp [fieldIsEmpty] at h2
            exact (isEmptyArr_iff v).mp h2
      · rw [if_neg h2] at he
        cases he
    · rw [if_neg h1] at he
      cases he
  · rintro ⟨hne, hcase⟩
    rcases hcase with ⟨rfl, hv⟩ | ⟨ht, rfl⟩
    · rcases hv with rfl | rfl
      · exact ⟨_, rfl⟩
      · exact ⟨_, rfl⟩
    · rcases ht with rfl | rfl
      · exact ⟨_, rfl⟩
      · exact ⟨_, rfl⟩

/-- Witness for C2: an empty-string RADIO_BUTTON value is rejected. -/
theorem validateFieldForWrite_raises_iff_witness :
    ∃ e, validateFieldForWrite ⟨"RADIO_BUTTON", JSVal.str ""⟩ = Except.error e :=
  (validateFieldForWrite_raises_iff.2 ⟨"RADIO_BUTTON", JSVal.str ""⟩).mpr
    ⟨by decide, Or.inl ⟨rfl, Or.inr rfl⟩⟩

theorem validateRecordForWrite_ok_iff (r : List (String × KField)) :
    validateRecordForWrite r = Except.ok () ↔
      ∀ p ∈ r, validateFieldForWrite p.2 = Except.ok () := by
  induction r with
  | nil => simp [validateRecordForWrite]
  | cons hd tl ih =>
      obtain ⟨k0, f0⟩ := hd
      cases hv : validateFieldForWrite f0 with
      | error e => simp [validateRecordForWrite, hv]
      | ok u =>
          cases u
          simp [validateRecordForWrite, hv, ih]

theorem validateRecordForWrite_first_error (pre : List (String × KField)) (k : String)
    (f : KField) (post : List (String × KField)) (e : KintoneValidationError)
    (hpre : ∀ p ∈ pre, validateFieldForWrite p.2 = Except.ok ())
    (he : validateFieldForWrite f = Except.error e) :
    validateRecordForWrite (pre ++ (k, f) :: post) =
      Except.error (wrapFieldError k e) := by
  induction pre with
  | nil => simp [validateRecordForWrite, he]
  | cons hd tl ih =>
      obtain ⟨k0, f0⟩ := hd
      have h0 : validateFieldForWrite f0 = Except.ok () := hpre (k0, f0) (by simp)
      simp only [List.cons_append, validateRecordForWrite, h0]
      exact ih (fun p hp => hpre p (by simp [hp]))

/-- C3: validateRecordForWrite walks the record entries in insertion order,
validating each field; it returns normally exactly when every field passes,
and with all fields before (k, f) passing and f failing with error e, it
raises the wrapped error for k no matter what comes after (k, f) — the
entries past the first offender are never consulted. -/
theorem validateRecordForWrite_failFast :
    (∀ r : List (String × KField),
      validateRecordForWrite r = Except.ok () ↔
        ∀ p ∈ r, validateFieldForWrite p.2 = Except.ok ()) ∧
    (∀ pre : List (String × KField), ∀ k : String, ∀ f : KField,
      ∀ post : List (String × KField), ∀ e : KintoneValidationError,
      (∀ p ∈ pre, validateFieldForWrite p.2 = Except.ok ()) →
      validateFieldForWrite f = Except.error e →
      validateRecordForWrite (pre ++ (k, f) :: post) =
        Except.error (wrapFieldError k e)) :=
  ⟨validateRecordForWrite_ok_iff,
   fun pre k f post e hpre he =>
     validateRecordForWrite_first_error pre k f post e hpre he⟩

/-- Witness for C3: a record whose second entry is an offending radio
button stops there with the wrapped error, ignoring the offending third
entry. -/
theorem validateRecordForWrite_failFast_witness :
    validateRecordForWrite
      ([("x", ⟨"SINGLE_LINE_TEXT", JSVal.str "Hello"⟩)] ++
        ("a", ⟨"RADIO_BUTTON", JSVal.null⟩) ::
        [("b", ⟨"CATEGORY", JSVal.arr []⟩)]) =
      Except.error (wrapFieldError "a" ⟨"RADIO_BUTTON", emptyValueMessage "RADIO_BUTTON"⟩) :=
  validateRecordForWrite_failFast.2 [("x", ⟨"SINGLE_LINE_TEXT", JSVal.str "Hello"⟩)]
    "a" ⟨"RADIO_BUTTON", JSVal.null⟩ [("b", ⟨"CATEGORY", JSVal.arr []⟩)]
    ⟨"RADIO_BUTTON", emptyValueMessage "RADIO_BUTTON"⟩
    (by
      intro p hp
      simp at hp
      subst hp
      rfl)
    rfl

/-- C5: getEmptyValueForWrite returns "" for the string family, null for
the null family, [] for the array family, raises for exactly RADIO_BUTTON,
CATEGORY and STATUS_ASSIGNEE, and falls back to "" for every other tag. -/
theorem getEmptyValueForWrite_table (t : String) :
    (t ∈ (["SINGLE_LINE_TEXT", "MULTI_LINE_TEXT", "RICH_TEXT", "LINK", "LOOKUP"] : List String) →
      getEmptyValueForWrite t = Except.ok (JSVal.str "")) ∧
    (t ∈ (["NUMBER", "DATE", "TIME", "DATETIME", "DROP_DOWN"] : List String) →
      getEmptyValueForWrite t = Except.ok JSVal.null) ∧
    (t ∈ (["CHECK_BOX", "MULTI_SELECT", "USER_SELECT", "ORGANIZATION_SELECT",
           "GROUP_SELECT", "FILE"] : List String) →
      getEmptyValueForWrite t = Except.ok (JSVal.arr [])) ∧
    ((∃ e, getEmptyValueForWrite t = Except.error e) ↔
      (t = "RADIO_BUTTON" ∨ t = "CATEGORY" ∨ t = "STATUS_ASSIGNEE")) ∧
    ((t ∉ (["SINGLE_LINE_TEXT", "MULTI_LINE_TEXT", "RICH_TEXT", "LINK", "LOOKUP"] : List String) ∧
      t ∉ (["NUMBER", "DATE", "TIME", "DATETIME", "DROP_DOWN"] : List String) ∧
      t ∉ (["CHECK_BOX", "MULTI_SELECT", "USER_SELECT", "ORGANIZATION_SELECT",
            "GROUP_SELECT", "FILE"] : List String) ∧
      t ∉ (["RADIO_BUTTON", "CATEGORY", "STATUS_ASSIGNEE"] : List String)) →
      getEmptyValueForWrite t = Except.ok (JSVal.str "")) := by
  refine ⟨?_, ?_, ?_, ?_, ?_⟩
  · intro h
    simp only [List.mem_cons, List.mem_singleton, List.not_mem_nil, or_false] at h
    rcases h with rfl | rfl | rfl | rfl | rfl <;> rfl
  · intro h
    simp only [List.mem_cons, List.mem_singleton, List.not_mem_nil, or_false] at h
    rcases h with rfl | rfl | rfl | rfl | rfl <;> rfl
  · intro h
    simp only [List.mem_cons, List.mem_singleton, List.not_mem_nil, or_false] at h
    rcases h with rfl | rfl | rfl | rfl | rfl | rfl <;> rfl
  · constructor
    · rintro ⟨e, he⟩
      unfold getEmptyValueForWrite at he
      by_cases c1 : (["SINGLE_LINE_TEXT", "MULTI_LINE_TEXT", "RICH_TEXT", "LINK", "LOOKUP"] : List String).contains t = true
      · rw [if_pos c1] at he
        cases he
      · rw [if_neg c1] at he
        by_cases c2 : (["NUMBER", "DATE", "TIME", "DATETIME", "DROP_DOWN"] : List String).contains t = true
        · rw [if_pos c2] at he
          cases he
        · rw [if_neg c2] at he
          by_cases c3 : (["CHECK_BOX", "MULTI_SELECT", "USER_SELECT", "ORGANIZATION_SELECT",
              "GROUP_SELECT", "FILE"] : List String).contains t = true
          · rw [if_pos c3] at he
            cases he
          · rw [if_neg c3] at he
            by_cases c4 : (["RADIO_BUTTON", "CATEGORY", "STATUS_ASSIGNEE"] : List String).contains t = true
            · simpa [List.contains] using c4
            · rw [if_neg c4] at he
              cases he
    · intro h
      rcases h with rfl | rfl | rfl
      · exact ⟨_, rfl⟩
      · exact ⟨_, rfl⟩
      · exact ⟨_, rfl⟩
  · rintro ⟨h1, h2, h3, h4⟩
    simp only [List.mem_cons, List.not_mem_nil, or_false, not_or] at h1 h2 h3 h4
    simp [getEmptyValueForWrite, h1, h2, h3, h4]

/-- Witness for C5: DROP_DOWN gets null as its empty write value. -/
theorem getEmptyValueForWrite_table_witness :
    getEmptyValueForWrite "DROP_DOWN" = Except.ok JSVal.null :=
  (getEmptyValueForWrite_table "DROP_DOWN").2.1 (by decide)

theorem headMatch_append_self (p s : List Char) : headMatch p (p ++ s) = true := by
  induction p with
  | nil => rfl
  | cons a as ih => simp [headMatch, ih]

theorem listHasSub_append_self (p s : List Char) : listHasSub (p ++ s) p = true := by
  cases p with
  | nil =>
      cases s with
      | nil => rfl
      | cons c t => simp [listHasSub, headMatch]
  | cons c t => simp [listHasSub, headMatch, headMatch_append_self]

theorem strHasSub_append_self (p s : String) : strHasSub (p ++ s) p = true := by
  simp [strHasSub, String.data_append, listHasSub_append_self]

/-- Counterexample for C4: the error validateRecordForWrite raises for the
offending key "a" does not contain the substring `Field "a":` — the code's
message prefix is the Japanese `フィールド "a":`, not the English wording of
the claim. -/
theorem validateRecordForWrite_english_message_cex :
    validateRecordForWrite
      [("a", ⟨"RADIO_BUTTON", JSVal.null⟩), ("b", ⟨"CATEGORY", JSVal.arr []⟩)] =
      Except.error ⟨"RADIO_BUTTON",
        "フィールド \"a\": RADIO_BUTTONフィールドには空の値を設定できません"⟩ ∧
    strHasSub "フィールド \"a\": RADIO_BUTTONフィールドには空の値を設定できません"
      "Field \"a\":" = false :=
  ⟨rfl, by decide⟩

/-- C4 (amended): when validateRecordForWrite raises for an offending field
at key k of type t, the raised error preserves fieldType t unchanged and
its message is the offending key prefixed onto the field-level message, in
the format フィールド "k": tフィールドには空の値を設定できません; in
particular the message contains the substring フィールド "k":. -/
theorem validateRecordForWrite_error_format (pre : List (String × KField)) (k : String)
    (f : KField) (post : List (String × KField)) (e : KintoneValidationError)
    (hpre : ∀ p ∈ pre, validateFieldForWrite p.2 = Except.ok ())
    (he : validateFieldForWrite f = Except.error e) :
    validateRecordForWrite (pre ++ (k, f) :: post) =
      Except.error ⟨f.type,
        "フィールド \"" ++ k ++ "\": " ++
          (f.type ++ "フィールドには空の値を設定できません")⟩ ∧
    strHasSub
      ("フィールド \"" ++ k ++ "\": " ++
        (f.type ++ "フィールドには空の値を設定できません"))
      ("フィールド \"" ++ k ++ "\":") = true := by
  have he' : e = ⟨f.type, emptyValueMessage f.type⟩ := validateFieldForWrite_error_shape he
  constructor
  · have h := validateRecordForWrite_first_error pre k f post e hpre he
    rw [h, he']
    rfl
  · have hsplit :
        ("フィールド \"" ++ k ++ "\": " ++
          (f.type ++ "フィールドには空の値を設定できません")) =
        ("フィールド \"" ++ k ++ "\":") ++
          (" " ++ (f.type ++ "フィールドには空の値を設定できません")) := by
      have h1 : ("\": " : String) = "\":" ++ " " := rfl
      rw [h1]
      simp only [String.append_assoc]
    rw [hsplit]
    exact strHasSub_append_self _ _

/-- Witness for C4's amended theorem: a record starting with an offending
radio button at key "a". -/
theorem validateRecordForWrite_error_format_witness :
    validateRecordForWrite
      ([] ++ ("a", (⟨"RADIO_BUTTON", JSVal.null⟩ : KField)) ::
        [("b", (⟨"CATEGORY", JSVal.arr []⟩ : KField))]) =
      Except.error ⟨"RADIO_BUTTON",
        "フィールド \"" ++ "a" ++ "\": " ++
          ("RADIO_BUTTON" ++ "フィールドには空の値を設定できません")⟩ :=
  (validateRecordForWrite_error_format [] "a" ⟨"RADIO_BUTTON", JSVal.null⟩
    [("b", ⟨"CATEGORY", JSVal.arr []⟩)]
    ⟨"RADIO_BUTTON", emptyValueMessage "RADIO_BUTTON"⟩
    (by intro p hp; cases hp) rfl).1

/-- C7: every canonical empty write value survives the pipeline — if
getEmptyValueForWrite t returns v, then a field object with type t and
value v is a fixed point of normalizeFieldValue and passes
validateFieldForWrite. -/
theorem emptyValue_normalize_validate (t : String) (v : JSVal)
    (h : getEmptyValueForWrite t = Except.ok v) :
    normalizeFieldValue (JSVal.obj [("type", JSVal.str t), ("value", v)]) =
      JSVal.obj [("type", JSVal.str t), ("value", v)] ∧
    validateFieldForWrite ⟨t, v⟩ = Except.ok () := by
  unfold getEmptyValueForWrite at h
  by_cases c1 : (["SINGLE_LINE_TEXT", "MULTI_LINE_TEXT", "RICH_TEXT", "LINK", "LOOKUP"] : List String).contains t = true
  · rw [if_pos c1] at h
    injection h with h
    subst h
    have hm := List.elem_iff.mp c1
    simp only [List.mem_cons, List.not_mem_nil, or_false] at hm
    rcases hm with rfl | rfl | rfl | rfl | rfl <;> exact ⟨rfl, rfl⟩
  · rw [if_neg c1] at h
    by_cases c2 : (["NUMBER", "DATE", "TIME", "DATETIME", "DROP_DOWN"] : List String).contains t = true
    · rw [if_pos c2] at h
      injection h with h
      subst h
      have hm := List.elem_iff.mp c2
      simp only [List.mem_cons, List.not_mem_nil, or_false] at hm
      rcases hm with rfl | rfl | rfl | rfl | rfl <;> exact ⟨rfl, rfl⟩
    · rw [if_neg c2] at h
      by_cases c3 : (["CHECK_BOX", "MULTI_SELECT", "USER_SELECT", "ORGANIZATION_SELECT",
          "GROUP_SELECT", "FILE"] : List String).contains t = true
      · rw [if_pos c3] at h
        injection h with h
        subst h
        have hm := List.elem_iff.mp c3
        simp only [List.mem_cons, List.not_mem_nil, or_false] at hm
        rcases hm with rfl | rfl | rfl | rfl | rfl | rfl <;> exact ⟨rfl, rfl⟩
      · rw [if_neg c3] at h
        by_cases c4 : (["RADIO_BUTTON", "CATEGORY", "STATUS_ASSIGNEE"] : List String).contains t = true
        · rw [if_pos c4] at h
          cases h
        · rw [if_neg c4] at h
          injection h with h
          subst h
          have hnot : t ∉ handledTags := by
            intro hm
            simp only [handledTags, stringEmptyTags, arrayDefaultTags, List.mem_append,
              List.mem_cons, List.not_mem_nil, or_false] at hm
            rcases hm with ((rfl | rfl | rfl | rfl) | (rfl | rfl | rfl | rfl | rfl | rfl | rfl)) |
              (rfl | rfl | rfl | rfl | rfl | rfl | rfl | rfl) <;>
              first
              | exact c1 (by decide)
              | exact c2 (by decide)
              | exact c3 (by decide)
              | exact c4 (by decide)
          have hbig : tagIs (JSVal.str t) handledTags = false := by
            simp only [tagIs]
            exact (contains_false_iff _ _).mpr hnot
          have hb1 := tagIs_sublist_false (l := stringEmptyTags) (by decide) hbig
          have hb2 := tagIs_sublist_false (l := ["RICH_TEXT"]) (by decide) hbig
          have hb3 := tagIs_sublist_false (l := ["NUMBER", "DATETIME"]) (by decide) hbig
          have hb4 := tagIs_sublist_false (l := ["DATE", "TIME"]) (by decide) hbig
          have hb5 := tagIs_sublist_false (l := ["DROP_DOWN"]) (by decide) hbig
          have hb6 := tagIs_sublist_false (l := ["RADIO_BUTTON"]) (by decide) hbig
          have hb7 := tagIs_sublist_false (l := arrayDefaultTags) (by decide) hbig
          constructor
          · simp [normalizeFieldValue, getProp, hb1, hb2, hb3, hb4, hb5, hb6, hb7]
          · have hne1 : ¬ t = "RADIO_BUTTON" := fun hh => c4 (by subst hh; decide)
            have hne2 : ¬ t = "CATEGORY" := fun hh => c4 (by subst hh; decide)
            have hne3 : ¬ t = "STATUS_ASSIGNEE" := fun hh => c4 (by subst hh; decide)
            simp [validateFieldForWrite, nonEmptyFields, hne1, hne2, hne3]

/-- Witness for C7: NUMBER's canonical empty value null is stable. -/
theorem emptyValue_normalize_validate_witness :
    normalizeFieldValue (JSVal.obj [("type", JSVal.str "NUMBER"), ("value", JSVal.null)]) =
      JSVal.obj [("type", JSVal.str "NUMBER"), ("value", JSVal.null)] ∧
    validateFieldForWrite ⟨"NUMBER", JSVal.null⟩ = Except.ok () :=
  emptyValue_normalize_validate "NUMBER" JSVal.null rfl

theorem normalizeFieldValue_obj_shape (props : List (String × JSVal)) :
    normalizeFieldValue (JSVal.obj props) = JSVal.obj props ∨
    ∃ v, normalizeFieldValue (JSVal.obj props) = JSVal.obj (setProp props "value" v) := by
  cases hc1 : tagIs (getProp props "type") stringEmptyTags with
  | true =>
      exact Or.inr ⟨if isUndef (getProp props "value") then JSVal.str ""
        else getProp props "value", by simp [normalizeFieldValue, hc1]⟩
  | false =>
  cases hc2 : tagIs (getProp props "type") ["RICH_TEXT"] with
  | true => exact Or.inl (by simp [normalizeFieldValue, hc1, hc2])
  | false =>
  cases hc3 : tagIs (getProp props "type") ["NUMBER", "DATETIME"] with
  | true =>
      exact Or.inr ⟨if isUndef (getProp props "value") || isEmptyStr (getProp props "value")
        then JSVal.null else getProp props "value",
        by simp [normalizeFieldValue, hc1, hc2, hc3]⟩
  | false =>
  cases hc4 : tagIs (getProp props "type") ["DATE", "TIME"] with
  | true =>
      exact Or.inr ⟨if isUndef (getProp props "value") then JSVal.null
        else getProp props "value", by simp [normalizeFieldValue, hc1, hc2, hc3, hc4]⟩
  | false =>
  cases hc5 : tagIs (getProp props "type") ["DROP_DOWN"] with
  | true =>
      exact Or.inr ⟨if isUndef (getProp props "value") || isEmptyStr (getProp props "value")
        then JSVal.null else getProp props "value",
        by simp [normalizeFieldValue, hc1, hc2, hc3, hc4, hc5]⟩
  | false =>
  cases hc6 : tagIs (getProp props "type") ["RADIO_BUTTON"] with
  | true =>
      exact Or.inr ⟨if isUndef (getProp props "value") || isEmptyStr (getProp props "value")
        then JSVal.null else getProp props "value",
        by simp [normalizeFieldValue, hc1, hc2, hc3, hc4, hc5, hc6]⟩
  | false =>
  cases hc7 : tagIs (getProp props "type") arrayDefaultTags with
  | true =>
      exact Or.inr ⟨if isUndef (getProp props "value") || isNull (getProp props "value")
        then JSVal.arr [] else getProp props "value",
        by simp [normalizeFieldValue, hc1, hc2, hc3, hc4, hc5, hc6, hc7]⟩
  | false => exact Or.inl (by simp [normalizeFieldValue, hc1, hc2, hc3, hc4, hc5, hc6, hc7])

/-- C8: normalizeFieldValue changes at most the value property — on any
object input the result is again an object, and every property other than
"value" (in particular "type") reads the same as on the input. -/
theorem normalizeFieldValue_preserves_other_props (props : List (String × JSVal)) (k : String)
    (hk : k ≠ "value") :
    (∃ props', normalizeFieldValue (JSVal.obj props) = JSVal.obj props') ∧
    getProp (objProps (normalizeFieldValue (JSVal.obj props))) k = getProp props k := by
  rcases normalizeFieldValue_obj_shape props with h | ⟨v, h⟩
  · rw [h]
    exact ⟨⟨props, rfl⟩, rfl⟩
  · rw [h]
    refine ⟨⟨_, rfl⟩, ?_⟩
    show getProp (setProp props "value" v) k = getProp props k
    exact getProp_setProp_ne props "value" k v hk

/-- Witness for C8: the extra property "foo" of a NUMBER field survives
normalization. -/
theorem normalizeFieldValue_preserves_other_props_witness :
    (∃ props', normalizeFieldValue
      (JSVal.obj [("type", JSVal.str "NUMBER"), ("foo", JSVal.null)]) = JSVal.obj props') ∧
    getProp (objProps (normalizeFieldValue
      (JSVal.obj [("type", JSVal.str "NUMBER"), ("foo", JSVal.null)]))) "foo" =
      getProp [("type", JSVal.str "NUMBER"), ("foo", JSVal.null)] "foo" :=
  normalizeFieldValue_preserves_other_props
    [("type", JSVal.str "NUMBER"), ("foo", JSVal.null)] "foo" (by decide)

/-- C9: normalizeFieldValue is total by construction (it is a plain
function with no error channel, mirroring the throw-free source), and on
any non-object input — null, undefined, booleans, numbers, strings,
arrays — it is the identity. -/
theorem normalizeFieldValue_id_nonObject (v : JSVal)
    (h : ∀ props : List (String × JSVal), v ≠ JSVal.obj props) :
    normalizeFieldValue v = v := by
  cases v <;> first | rfl | exact absurd rfl (h _)

/-- Witness for C9: null input is returned unchanged. -/
theorem normalizeFieldValue_id_nonObject_witness :
    normalizeFieldValue JSVal.null = JSVal.null :=
  normalizeFieldValue_id_nonObject JSVal.null (by intro props hh; simp at hh)

/-- C10: an un-normalized undefined RADIO_BUTTON value passes write
validation (only null and "" count as empty there), yet normalization maps
that undefined to null, which the validator rejects — so write validation
catches undefined radio-button values only if normalization runs first. -/
theorem radioButton_undef_passes_validation :
    validateFieldForWrite ⟨"RADIO_BUTTON", JSVal.undef⟩ = Except.ok () ∧
    normalizeFieldValue (JSVal.obj [("type", JSVal.str "RADIO_BUTTON"), ("value", JSVal.undef)]) =
      JSVal.obj [("type", JSVal.str "RADIO_BUTTON"), ("value", JSVal.null)] ∧
    validateFieldForWrite ⟨"RADIO_BUTTON", JSVal.null⟩ =
      Except.error ⟨"RADIO_BUTTON", emptyValueMessage "RADIO_BUTTON"⟩ :=
  ⟨rfl, rfl, rfl⟩
